import Mathlib

/-!
Verification of the multi-input recording core of `hallmark-record`
(`src/recorder/multi_input_recorder.py`, class `MultiInputRecorder`).

The embedding models the recorder state (`recording_processes`, `is_recording`),
the launch loops of `start_recording`, the per-monitor command construction of
`start_monitor_recording`, and the escalating per-task shutdown of
`stop_recording`.  External effects are made explicit:

* a subprocess spawn (`subprocess.Popen`) is an oracle
  `LaunchOracle : TaskType → String → Option ProcBehavior`; `none` means the
  spawn raised an `OSError`, `some pb` is the live process handle, abstracted by
  the observable behavior `pb` it will show during shutdown;
* logging and process-control calls are recorded in an `Event` trace;
* Python exceptions are modelled with `Except PyExc`; the `try/except`
  blocks of the source become the corresponding `match`es on intermediate
  `Except`/`Option PyExc` results.
-/

namespace HallmarkRecord

/-- The `'type'` field of a recording dict: `'camera'`, `'microphone'` or
`'monitor'` (lines 328, 341, 354 of `multi_input_recorder.py`). -/
inductive TaskType where
  | camera
  | microphone
  | monitor
deriving DecidableEq, Repr

/-- A monitor dict as produced by `list_monitors` (lines 129–136):
`name`, `x`, `y`, `width`, `height`, `is_primary`. -/
structure Monitor where
  name : String
  x : Int
  y : Int
  width : Int
  height : Int
  isPrimary : Bool
deriving DecidableEq, Repr

/-- The observable shutdown behavior of one live ffmpeg subprocess, i.e. the
answers the OS gives to the calls `stop_recording` makes on its handle:

* `writeRaises`: `process.stdin.write(b'q')` raises (e.g. a broken pipe when
  the process died on its own);
* `exitsWithin5`: `process.wait(timeout=5)` returns instead of raising
  `TimeoutExpired`;
* `exitsAfterTerminate`: the `process.wait(timeout=2)` issued after
  `process.terminate()` returns instead of raising `TimeoutExpired`. -/
structure ProcBehavior where
  writeRaises : Bool
  exitsWithin5 : Bool
  exitsAfterTerminate : Bool
deriving DecidableEq, Repr

/-- One entry of `self.recording_processes` (lines 327–332): the dict
`{'type': ..., 'name': ..., 'process': ..., 'output': ...}`.  The live process
handle is abstracted by its shutdown behavior. -/
structure Recording where
  type : TaskType
  name : String
  process : ProcBehavior
  output : String
deriving DecidableEq, Repr

/-- The mutable state of a `MultiInputRecorder` instance (lines 23–25):
`output_dir`, `recording_processes`, `is_recording`. -/
structure RecorderState where
  outputDir : String
  recordingProcesses : List Recording
  isRecording : Bool
deriving DecidableEq, Repr

/-- Constructor `__init__` (lines 17–30): empty process list, not recording. -/
def initState (outputDir : String) : RecorderState :=
  { outputDir := outputDir, recordingProcesses := [], isRecording := false }

/-- Process-control calls issued by `stop_recording` on one task. -/
inductive StopAction where
  | writeQuit
  | closeStdin
  | waitFor (timeout : Option Nat)
  | terminate
  | kill
deriving DecidableEq, Repr

/-- Observable events (log lines, directory creation, spawn attempts and
process-control calls) of the public operations. -/
inductive Event where
  | warnAlreadyRecording
  | warnNotRecording
  | sessionDirCreated (dir : String)
  | launchAttempt (t : TaskType) (name : String)
  | launched (t : TaskType) (name : String) (output : String)
  | launchFailed (t : TaskType) (name : String)
  | stopping (t : TaskType) (name : String)
  | act (a : StopAction)
  | stopErrorLogged
  | outputSaved (path : String)
  | outputMissing (path : String)
deriving DecidableEq, Repr

/-- Python exceptions relevant to the shutdown path. -/
inductive PyExc where
  | timeoutExpired
  | brokenPipe
deriving DecidableEq, Repr

/-- Result of one `subprocess.Popen` call for a device of a given kind and
name: `none` when the spawn raises, otherwise the handle. -/
def LaunchOracle : Type :=
  TaskType → String → Option ProcBehavior

/-- Python `name.replace(' ', '_')` (lines 324, 337, 350). -/
def sanitizeName (s : String) : String :=
  ⟨s.data.map fun c => if c = ' ' then '_' else c⟩

/-- The session-relative output file name of the task at 0-based position
`idx` of its own kind's list: the f-strings
`f"camera_{idx+1}_{camera.replace(' ', '_')}.mp4"` (line 324),
`f"mic_{idx+1}_{mic.replace(' ', '_')}.wav"` (line 337) and
`f"monitor_{idx+1}_{monitor['name'].replace(' ', '_')}.mp4"` (line 350). -/
def outputFileName (t : TaskType) (idx : Nat) (name : String) : String :=
  match t with
  | .camera => "camera_" ++ Nat.repr (idx + 1) ++ "_" ++ sanitizeName name ++ ".mp4"
  | .microphone => "mic_" ++ Nat.repr (idx + 1) ++ "_" ++ sanitizeName name ++ ".wav"
  | .monitor => "monitor_" ++ Nat.repr (idx + 1) ++ "_" ++ sanitizeName name ++ ".mp4"

/-- Python `os.path.join(session_dir, <file name>)`. -/
def outputPath (sessionDir : String) (t : TaskType) (idx : Nat) (name : String) : String :=
  sessionDir ++ "/" ++ outputFileName t idx name

/-- From `start_monitor_recording`, lines 256–257: `if w % 2 != 0: w -= 1`. -/
def monitorLaunchWidth (m : Monitor) : Int :=
  if m.width % 2 ≠ 0 then m.width - 1 else m.width

/-- From `start_monitor_recording`, lines 258–259: `if h % 2 != 0: h -= 1`. -/
def monitorLaunchHeight (m : Monitor) : Int :=
  if m.height % 2 ≠ 0 then m.height - 1 else m.height

/-- The gdigrab command vector built by `start_monitor_recording`
(lines 261–271). -/
def monitorCommand (ffmpegPath : String) (m : Monitor) (outputFile : String) : List String :=
  [ffmpegPath, "-y", "-f", "gdigrab",
   "-framerate", "30",
   "-draw_mouse", "1",
   "-offset_x", toString m.x,
   "-offset_y", toString m.y,
   "-video_size", toString (monitorLaunchWidth m) ++ "x" ++ toString (monitorLaunchHeight m),
   "-i", "desktop",
   "-pix_fmt", "yuv420p",
   outputFile]

/-- One launch loop of `start_recording` over the indexed device names of one
kind (e.g. lines 322–332 for cameras): each device whose spawn succeeded is
appended to `recording_processes` as a task record; a failed spawn contributes
nothing. -/
def kindTasksAux (launch : LaunchOracle) (t : TaskType) (sessionDir : String)
    (pairs : List (Nat × String)) : List Recording :=
  pairs.filterMap fun p =>
    (launch t p.2).map fun pb =>
      { type := t, name := p.2, process := pb, output := outputPath sessionDir t p.1 p.2 }

/-- The tasks contributed by the devices of one kind, indexed from 0 within
that kind's own list (`enumerate` in the source). -/
def kindTasks (launch : LaunchOracle) (t : TaskType) (sessionDir : String)
    (names : List String) : List Recording :=
  kindTasksAux launch t sessionDir names.enum

/-- The spawn-related log events of one launch loop: every device is
attempted in order; a successful spawn logs the started recording (lines
195, 212 / 227, 243 / 273, 289), a failed one logs the error
(lines 214–216, 245–247, 291–293). -/
def kindEventsAux (launch : LaunchOracle) (t : TaskType) (sessionDir : String)
    (pairs : List (Nat × String)) : List Event :=
  pairs.flatMap fun p =>
    match launch t p.2 with
    | some _ => [.launchAttempt t p.2, .launched t p.2 (outputPath sessionDir t p.1 p.2)]
    | none => [.launchAttempt t p.2, .launchFailed t p.2]

def kindEvents (launch : LaunchOracle) (t : TaskType) (sessionDir : String)
    (names : List String) : List Event :=
  kindEventsAux launch t sessionDir names.enum

/-- Method `start_recording` (lines 295–363).  `sessionDir` abstracts the
timestamp-named directory `session_<timestamp>` created at lines 315–317.
Returns the updated state, the Python return value (`None` when already
recording, else the session directory path), and the event trace.

Faithful to the source: when not already recording, the three launch loops run
(cameras, then microphones, then monitors, each in caller order), successful
tasks are appended to `recording_processes`, and `is_recording` is set to
`True` unconditionally at line 360 — even when no task launched. -/
def startRecording (launch : LaunchOracle) (sessionDir : String)
    (cameras microphones : List String) (monitors : List Monitor)
    (st : RecorderState) : RecorderState × Option String × List Event :=
  if st.isRecording then
    (st, none, [.warnAlreadyRecording])
  else
    let camTasks := kindTasks launch .camera sessionDir cameras
    let micTasks := kindTasks launch .microphone sessionDir microphones
    let monTasks := kindTasks launch .monitor sessionDir (monitors.map Monitor.name)
    ({ st with
        recordingProcesses := st.recordingProcesses ++ (camTasks ++ micTasks ++ monTasks),
        isRecording := true },
     some sessionDir,
     .sessionDirCreated sessionDir ::
       (kindEvents launch .camera sessionDir cameras ++
        kindEvents launch .microphone sessionDir microphones ++
        kindEvents launch .monitor sessionDir (monitors.map Monitor.name)))

/-- The inner `try` of the stop loop (lines 379–395): write the quit byte,
flush and close stdin, `wait(timeout=5)`; on `TimeoutExpired`, `terminate()`
then `wait(timeout=2)`; on a second `TimeoutExpired`, `kill()` then `wait()`
with no timeout.  Returns the trace of process-control calls plus the
exception, if any, that escaped this block — only a failed stdin write does,
since both `TimeoutExpired` handlers are local. -/
def stopProcessActions (b : ProcBehavior) : List Event × Option PyExc :=
  if b.writeRaises then
    ([], some .brokenPipe)
  else
    let tr := [Event.act .writeQuit, Event.act .closeStdin, Event.act (.waitFor (some 5))]
    if b.exitsWithin5 then (tr, none)
    else
      let tr := tr ++ [Event.act .terminate, Event.act (.waitFor (some 2))]
      if b.exitsAfterTerminate then (tr, none)
      else (tr ++ [Event.act .kill, Event.act (.waitFor none)], none)

/-- The post-stop output check (lines 397–402): log the saved file's size if
it exists, else log an error; `fs` is the file-existence oracle. -/
def outputCheck (fs : String → Bool) (r : Recording) : List Event :=
  if fs r.output then [.outputSaved r.output] else [.outputMissing r.output]

/-- One iteration of the stop loop (lines 373–410): the outer
`try/except Exception` around the per-task shutdown.  When the inner block
raises, the handler logs the error, calls `terminate()` and `wait(timeout=2)`
and, if that wait times out, `kill()` (line 410, with no further wait);
nothing escapes to the caller. -/
def stopOneTask (fs : String → Bool) (r : Recording) : Except PyExc (List Event) :=
  match stopProcessActions r.process with
  | (tr, none) =>
      .ok (.stopping r.type r.name :: (tr ++ outputCheck fs r))
  | (tr, some _) =>
      let tr := .stopping r.type r.name ::
        (tr ++ [Event.stopErrorLogged, Event.act .terminate, Event.act (.waitFor (some 2))])
      .ok (if r.process.exitsAfterTerminate then tr else tr ++ [Event.act .kill])

/-- Method `stop_recording` (lines 365–414): warn and return when idle; otherwise
stop every task sequentially in list order, then clear the task list and
reset `is_recording`. -/
def stopRecording (fs : String → Bool) (st : RecorderState) :
    Except PyExc (RecorderState × List Event) := do
  if !st.isRecording then
    return (st, [.warnNotRecording])
  else
    let evss ← st.recordingProcesses.mapM (stopOneTask fs)
    return ({ st with recordingProcesses := [], isRecording := false }, evss.flatten)

/-! ### Decimal representation facts

`Nat.repr` drives the `{idx+1}` part of the output file names; distinctness of
those names needs that decimal digit strings contain no underscore and that
`Nat.repr` is injective. -/

/-- The decimal digit characters of `n`, most significant first, as a
structurally transparent reformulation of `Nat.toDigitsCore`. -/
def decDigits (n : Nat) : List Char :=
  if h : n / 10 = 0 then [Nat.digitChar (n % 10)]
  else decDigits (n / 10) ++ [Nat.digitChar (n % 10)]
termination_by n
decreasing_by
  simp_wf
  omega

theorem decDigits_of_lt (n : Nat) (h : n < 10) :
    decDigits n = [Nat.digitChar (n % 10)] := by
  rw [decDigits, dif_pos (by omega)]

theorem decDigits_of_ge (n : Nat) (h : 10 ≤ n) :
    decDigits n = decDigits (n / 10) ++ [Nat.digitChar (n % 10)] := by
  rw [decDigits, dif_neg (by omega)]

theorem toDigitsCore_eq_decDigits (f : Nat) :
    ∀ (n : Nat) (l : List Char), n < f →
      Nat.toDigitsCore 10 f n l = decDigits n ++ l := by
  induction f with
  | zero =>
    intro n l h
    omega
  | succ f ih =>
    intro n l h
    rw [Nat.toDigitsCore]
    by_cases h0 : n / 10 = 0
    · rw [if_pos h0, decDigits_of_lt n (by omega)]
      simp
    · rw [if_neg h0, ih (n / 10) _ (by omega), decDigits_of_ge n (by omega)]
      simp

theorem natRepr_data (n : Nat) : (Nat.repr n).data = decDigits n := by
  show (Nat.toDigits 10 n).asString.data = decDigits n
  show Nat.toDigits 10 n = decDigits n
  rw [Nat.toDigits, toDigitsCore_eq_decDigits (n + 1) n [] (by omega), List.append_nil]

theorem digitChar_ne_underscore : ∀ n < 10, Nat.digitChar n ≠ '_' := by
  decide

theorem digitChar_injOn : ∀ m < 10, ∀ n < 10,
    Nat.digitChar m = Nat.digitChar n → m = n := by
  decide

theorem underscore_not_mem_decDigits (n : Nat) : '_' ∉ decDigits n := by
  induction n using Nat.strong_induction_on with
  | _ n ih =>
    by_cases h : n < 10
    · rw [decDigits_of_lt n h]
      simp only [List.mem_singleton]
      exact fun hc => digitChar_ne_underscore (n % 10) (by omega) hc.symm
    · rw [decDigits_of_ge n (by omega)]
      simp only [List.mem_append, List.mem_singleton, not_or]
      exact ⟨ih (n / 10) (by omega),
        fun hc => digitChar_ne_underscore (n % 10) (by omega) hc.symm⟩

theorem decDigits_ne_nil (n : Nat) : decDigits n ≠ [] := by
  by_cases h : n < 10
  · rw [decDigits_of_lt n h]
    simp
  · rw [decDigits_of_ge n (by omega)]
    simp

theorem decDigits_inj : ∀ m n : Nat, decDigits m = decDigits n → m = n := by
  intro m
  induction m using Nat.strong_induction_on with
  | _ m ih =>
    intro n h
    by_cases hm : m < 10 <;> by_cases hn : n < 10
    · rw [decDigits_of_lt m hm, decDigits_of_lt n hn] at h
      simp only [List.cons.injEq, and_true] at h
      have := digitChar_injOn (m % 10) (by omega) (n % 10) (by omega) h
      omega
    · rw [decDigits_of_lt m hm, decDigits_of_ge n (by omega)] at h
      have hlen := congrArg List.length h
      simp only [List.length_singleton, List.length_append] at hlen
      have := List.length_pos.mpr (decDigits_ne_nil (n / 10))
      omega
    · rw [decDigits_of_ge m (by omega), decDigits_of_lt n hn] at h
      have hlen := congrArg List.length h
      simp only [List.length_singleton, List.length_append] at hlen
      have := List.length_pos.mpr (decDigits_ne_nil (m / 10))
      omega
    · rw [decDigits_of_ge m (by omega), decDigits_of_ge n (by omega)] at h
      obtain ⟨h1, h2⟩ := List.append_inj' h rfl
      have hdiv := ih (m / 10) (by omega) (n / 10) h1
      simp only [List.cons.injEq, and_true] at h2
      have hmod := digitChar_injOn (m % 10) (by omega) (n % 10) (by omega) h2
      omega

theorem natRepr_inj {m n : Nat} (h : Nat.repr m = Nat.repr n) : m = n := by
  apply decDigits_inj
  rw [← natRepr_data, ← natRepr_data, h]

theorem underscore_not_mem_natRepr (n : Nat) : '_' ∉ (Nat.repr n).data := by
  rw [natRepr_data]
  exact underscore_not_mem_decDigits n

/-- Cancelling an underscore-free prefix up to the first underscore: the
delimiter determines the split. -/
theorem append_underscore_inj :
    ∀ (l₁ l₂ s t : List Char), '_' ∉ l₁ → '_' ∉ l₂ →
      l₁ ++ '_' :: s = l₂ ++ '_' :: t → l₁ = l₂ ∧ s = t := by
  intro l₁
  induction l₁ with
  | nil =>
    intro l₂ s t _ h2 h
    cases l₂ with
    | nil => simpa using h
    | cons b l₂ =>
      simp only [List.nil_append, List.cons_append, List.cons.injEq] at h
      obtain ⟨hb, -⟩ := h
      subst hb
      exact absurd (List.mem_cons_self _ _) h2
  | cons a l₁ ih =>
    intro l₂ s t h1 h2 h
    cases l₂ with
    | nil =>
      simp only [List.cons_append, List.nil_append, List.cons.injEq] at h
      obtain ⟨ha, -⟩ := h
      subst ha
      exact absurd (List.mem_cons_self _ _) h1
    | cons b l₂ =>
      simp only [List.cons_append, List.cons.injEq] at h
      obtain ⟨rfl, h⟩ := h
      have := ih l₂ s t (fun hc => h1 (List.mem_cons_of_mem _ hc))
        (fun hc => h2 (List.mem_cons_of_mem _ hc)) h
      exact ⟨by rw [this.1], this.2⟩

/-! ### Structure of the output paths -/

/-- The kind-specific leading characters of an output file name. -/
def kindPrefixChars (t : TaskType) : List Char :=
  match t with
  | .camera => ['c', 'a', 'm', 'e', 'r', 'a', '_']
  | .microphone => ['m', 'i', 'c', '_']
  | .monitor => ['m', 'o', 'n', 'i', 't', 'o', 'r', '_']

/-- The kind-specific extension characters of an output file name. -/
def kindExtChars (t : TaskType) : List Char :=
  match t with
  | .camera => ['.', 'm', 'p', '4']
  | .microphone => ['.', 'w', 'a', 'v']
  | .monitor => ['.', 'm', 'p', '4']

theorem outputFileName_data (t : TaskType) (idx : Nat) (name : String) :
    (outputFileName t idx name).data =
      kindPrefixChars t ++ ((Nat.repr (idx + 1)).data ++
        ('_' :: ((sanitizeName name).data ++ kindExtChars t))) := by
  cases t <;>
    simp [outputFileName, String.data_append, kindPrefixChars, kindExtChars]

theorem outputPath_data (d : String) (t : TaskType) (idx : Nat) (name : String) :
    (outputPath d t idx name).data =
      d.data ++ ('/' :: (kindPrefixChars t ++ ((Nat.repr (idx + 1)).data ++
        ('_' :: ((sanitizeName name).data ++ kindExtChars t))))) := by
  simp [outputPath, String.data_append, outputFileName_data]

theorem kindPrefixChars_take4_inj : ∀ t t' : TaskType,
    (kindPrefixChars t).take 4 = (kindPrefixChars t').take 4 → t = t' := by
  intro t t' h
  cases t <;> cases t' <;> first | rfl | exact absurd h (by decide)

/-- Two output paths in the same session directory agree on the task kind. -/
theorem outputPath_kind_inj {d : String} {t t' : TaskType} {i j : Nat} {n m : String}
    (h : outputPath d t i n = outputPath d t' j m) : t = t' := by
  have hd := congrArg String.data h
  rw [outputPath_data, outputPath_data] at hd
  have h1 := List.append_cancel_left hd
  simp only [List.cons.injEq, true_and] at h1
  apply kindPrefixChars_take4_inj
  have h4 := congrArg (List.take 4) h1
  rwa [List.take_append_of_le_length (by cases t <;> decide),
    List.take_append_of_le_length (by cases t' <;> decide)] at h4

/-- Two equal output paths of the same kind in the same session directory come
from the same 0-based index. -/
theorem outputPath_idx_inj {d : String} {t : TaskType} {i j : Nat} {n m : String}
    (h : outputPath d t i n = outputPath d t j m) : i = j := by
  have hd := congrArg String.data h
  rw [outputPath_data, outputPath_data] at hd
  have h1 := List.append_cancel_left hd
  simp only [List.cons.injEq, true_and] at h1
  have h2 := List.append_cancel_left h1
  obtain ⟨h3, -⟩ := append_underscore_inj _ _ _ _
    (underscore_not_mem_natRepr (i + 1)) (underscore_not_mem_natRepr (j + 1)) h2
  have h4 := decDigits_inj (i + 1) (j + 1)
    (by rw [← natRepr_data, ← natRepr_data, h3])
  omega

/-! ### Launch-loop lemmas -/

theorem mem_enum_eq_of_fst_eq {α : Type} {l : List α} {p q : Nat × α}
    (hp : p ∈ l.enum) (hq : q ∈ l.enum) (h : p.1 = q.1) : p = q := by
  rw [List.mem_enum_iff_getElem?] at hp hq
  obtain ⟨pi, pa⟩ := p
  obtain ⟨qi, qa⟩ := q
  simp only at h
  subst h
  rw [hp] at hq
  simp only [Option.some.injEq] at hq
  rw [hq]

theorem enum_nodup {α : Type} (l : List α) : l.enum.Nodup := by
  apply List.Nodup.of_map Prod.fst
  rw [List.enum_map_fst]
  exact List.nodup_range l.length

theorem filterMap_sublist_map {α β : Type} (f : α → Option β) (g : α → β)
    (h : ∀ a b, f a = some b → b = g a) :
    ∀ l : List α, (l.filterMap f).Sublist (l.map g) := by
  intro l
  induction l with
  | nil => simp
  | cons a l ih =>
    rw [List.map_cons]
    cases hfa : f a with
    | none =>
      rw [List.filterMap_cons_none hfa]
      exact ih.cons (g a)
    | some b =>
      rw [List.filterMap_cons_some hfa, h a b hfa]
      exact ih.cons₂ (g a)

theorem mem_kindTasks_elim {launch : LaunchOracle} {t : TaskType} {d : String}
    {names : List String} {r : Recording} (h : r ∈ kindTasks launch t d names) :
    ∃ p ∈ names.enum, launch t p.2 = some r.process ∧
      r.type = t ∧ r.name = p.2 ∧ r.output = outputPath d t p.1 p.2 := by
  rw [kindTasks, kindTasksAux, List.mem_filterMap] at h
  obtain ⟨p, hp, hr⟩ := h
  cases hl : launch t p.2 with
  | none => rw [hl] at hr; simp at hr
  | some pb =>
    rw [hl] at hr
    simp only [Option.map_some', Option.some.injEq] at hr
    exact ⟨p, hp, by rw [hl, ← hr], by rw [← hr], by rw [← hr], by rw [← hr]⟩

theorem mem_kindTasks_intro {launch : LaunchOracle} {t : TaskType} {d : String}
    {names : List String} {p : Nat × String} {pb : ProcBehavior}
    (hp : p ∈ names.enum) (hl : launch t p.2 = some pb) :
    (⟨t, p.2, pb, outputPath d t p.1 p.2⟩ : Recording) ∈ kindTasks launch t d names := by
  rw [kindTasks, kindTasksAux, List.mem_filterMap]
  exact ⟨p, hp, by rw [hl]; rfl⟩

/-- The output paths contributed by one kind's launch loop are pairwise
distinct: paths embed the per-kind 0-based index, which is distinct across
the loop. -/
theorem kindTasks_outputs_nodup (launch : LaunchOracle) (t : TaskType) (d : String)
    (names : List String) :
    ((kindTasks launch t d names).map Recording.output).Nodup := by
  have hsub : ((kindTasks launch t d names).map Recording.output).Sublist
      (names.enum.map fun p => outputPath d t p.1 p.2) := by
    rw [kindTasks, kindTasksAux, List.map_filterMap]
    apply filterMap_sublist_map
    intro p s hs
    cases hl : launch t p.2 with
    | none => rw [hl] at hs; simp at hs
    | some pb =>
      rw [hl] at hs
      simp only [Option.map_some', Option.some.injEq] at hs
      rw [← hs]
  apply hsub.nodup
  apply List.Nodup.map_on _ (enum_nodup names)
  intro p hp q hq hpq
  exact mem_enum_eq_of_fst_eq hp hq (outputPath_idx_inj hpq)

/-- Output paths contributed by two different kinds never collide: the file
name prefixes (`camera_`, `mic_`, `monitor_`) differ. -/
theorem kindTasks_outputs_disjoint {launch launch' : LaunchOracle} {t t' : TaskType}
    {d : String} {names names' : List String} (hne : t ≠ t') :
    ((kindTasks launch t d names).map Recording.output).Disjoint
      ((kindTasks launch' t' d names').map Recording.output) := by
  intro x hx hx'
  rw [List.mem_map] at hx hx'
  obtain ⟨r, hr, hro⟩ := hx
  obtain ⟨r', hr', hro'⟩ := hx'
  obtain ⟨p, -, -, -, -, hout⟩ := mem_kindTasks_elim hr
  obtain ⟨p', -, -, -, -, hout'⟩ := mem_kindTasks_elim hr'
  exact hne (outputPath_kind_inj (d := d)
    (by rw [← hout, hro, ← hro', hout']))

/-- Extracts the process-control calls from an event trace. -/
def eventAction : Event → Option StopAction
  | .act a => some a
  | _ => none

/-- Extracts the output paths of successfully launched tasks, in trace
order. -/
def launchedOutput : Event → Option String
  | .launched _ _ o => some o
  | _ => none

/-! ### Claim theorems -/

theorem monitorLaunchWidth_eq (m : Monitor) :
    monitorLaunchWidth m = m.width - m.width % 2 := by
  rw [monitorLaunchWidth]
  split <;> omega

theorem monitorLaunchHeight_eq (m : Monitor) :
    monitorLaunchHeight m = m.height - m.height % 2 := by
  rw [monitorLaunchHeight]
  split <;> omega

/-- C4: for every monitor descriptor, the `-video_size` argument of the
launched gdigrab invocation is `(width - width % 2) x (height - height % 2)`,
so both capture dimensions are even; in particular a monitor of width 1921
and height 1081 is captured at 1920 by 1080. -/
theorem C4_monitor_capture_size_even (ffmpegPath outputFile : String) (m : Monitor) :
    (monitorCommand ffmpegPath m outputFile).get? 13 =
      some (toString (m.width - m.width % 2) ++ "x" ++
        toString (m.height - m.height % 2)) ∧
    (m.width - m.width % 2) % 2 = 0 ∧
    (m.height - m.height % 2) % 2 = 0 ∧
    (monitorCommand ffmpegPath ⟨"M1", 0, 0, 1921, 1081, true⟩ outputFile).get? 13 =
      some "1920x1080" := by
  refine ⟨?_, by omega, by omega, ?_⟩
  · simp [monitorCommand, monitorLaunchWidth_eq, monitorLaunchHeight_eq]
  · rfl

/-- C7: a `start_recording` call while a session is already active is
rejected as a no-op: a warning is logged, `None` is returned, and the state
is unchanged. -/
theorem C7_start_while_recording_rejected (launch : LaunchOracle)
    (sessionDir : String) (cameras microphones : List String)
    (monitors : List Monitor) (st : RecorderState) (h : st.isRecording = true) :
    startRecording launch sessionDir cameras microphones monitors st =
      (st, none, [Event.warnAlreadyRecording]) := by
  rw [startRecording, if_pos h]

theorem C7_witness :
    startRecording (fun _ _ => none) "s" ["cam"] [] []
        { outputDir := "o", recordingProcesses := [], isRecording := true } =
      ({ outputDir := "o", recordingProcesses := [], isRecording := true }, none,
        [Event.warnAlreadyRecording]) :=
  C7_start_while_recording_rejected _ _ _ _ _ _ rfl

/-- C9: `stop_recording` on an already-idle session is a no-op: it returns
without error, the state is unchanged, and the event trace is just the
warning log line — no process-control call and no filesystem access. -/
theorem C9_stop_idle_noop (fs : String → Bool) (st : RecorderState)
    (h : st.isRecording = false) :
    stopRecording fs st = .ok (st, [Event.warnNotRecording]) := by
  rw [stopRecording, if_pos (show (!st.isRecording) = true by simp [h])]
  rfl

theorem C9_witness :
    stopRecording (fun _ => true) (initState "o") =
      .ok (initState "o", [Event.warnNotRecording]) :=
  C9_stop_idle_noop (fun _ => true) (initState "o") rfl

/-- C3, counterexample: requesting zero devices from an idle recorder leaves
the task list empty, yet `is_recording` is `True` afterwards — the session
does not remain idle, contrary to the claim. -/
theorem C3_counterexample :
    (startRecording (fun _ _ => none) "s" [] [] [] (initState "o")).1.isRecording = true ∧
    (startRecording (fun _ _ => none) "s" [] [] []
      (initState "o")).1.recordingProcesses = [] := by
  constructor <;> rfl

/-- C3, amended: with zero requested devices `start_recording` launches no
task (the task list is unchanged) and still returns the session directory,
but the state becomes `recording` anyway: `is_recording` is set to `True`
unconditionally at the end of every non-rejected call, even with no task. -/
theorem C3_amended_zero_devices (launch : LaunchOracle) (sessionDir : String)
    (st : RecorderState) (h : st.isRecording = false) :
    (startRecording launch sessionDir [] [] [] st).1.recordingProcesses =
      st.recordingProcesses ∧
    (startRecording launch sessionDir [] [] [] st).2.1 = some sessionDir ∧
    (startRecording launch sessionDir [] [] [] st).1.isRecording = true := by
  rw [startRecording, if_neg (by simp [h])]
  exact ⟨by simp [kindTasks, kindTasksAux], rfl, rfl⟩

theorem C3_amended_witness :
    (startRecording (fun _ _ => none) "s" [] [] [] (initState "o")).1.recordingProcesses =
      (initState "o").recordingProcesses ∧
    (startRecording (fun _ _ => none) "s" [] [] [] (initState "o")).2.1 = some "s" ∧
    (startRecording (fun _ _ => none) "s" [] [] [] (initState "o")).1.isRecording = true :=
  C3_amended_zero_devices (fun _ _ => none) "s" (initState "o") rfl

/-- The invariant of claim C10: an idle recorder holds no live subprocess
handles. -/
def IdleImpliesNoTasks (st : RecorderState) : Prop :=
  st.isRecording = false → st.recordingProcesses = []

/-- C10: the invariant `is_recording = false → recording_processes = []`
holds after construction and is preserved by every completed
`start_recording` and `stop_recording` call. -/
theorem C10_idle_recorder_holds_no_processes :
    (∀ d, IdleImpliesNoTasks (initState d)) ∧
    (∀ (launch : LaunchOracle) (sessionDir : String)
       (cameras microphones : List String) (monitors : List Monitor)
       (st : RecorderState), IdleImpliesNoTasks st →
       IdleImpliesNoTasks
         (startRecording launch sessionDir cameras microphones monitors st).1) ∧
    (∀ (fs : String → Bool) (st st' : RecorderState) (evs : List Event),
       IdleImpliesNoTasks st → stopRecording fs st = .ok (st', evs) →
       IdleImpliesNoTasks st') := by
  refine ⟨fun _ _ => rfl, ?_, ?_⟩
  · intro launch sessionDir cameras microphones monitors st hst
    rw [startRecording]
    by_cases h : st.isRecording
    · rw [if_pos h]
      exact hst
    · rw [if_neg h]
      intro hfalse
      simp at hfalse
  · intro fs st st' evs hst hok
    rw [stopRecording] at hok
    by_cases h : st.isRecording
    · simp only [h, Bool.not_true, Bool.false_eq_true, if_false] at hok
      cases hm : st.recordingProcesses.mapM (stopOneTask fs) with
      | error e => rw [hm] at hok; exact absurd hok (by simp [Bind.bind, Except.bind])
      | ok evss =>
        rw [hm] at hok
        have hok' : Except.ok (ε := PyExc)
            ({ st with recordingProcesses := [], isRecording := false }, evss.flatten) =
            Except.ok (st', evs) := hok
        have h2 : ({ st with recordingProcesses := [], isRecording := false } :
            RecorderState) = st' := congrArg Prod.fst (Except.ok.inj hok')
        intro _
        rw [← h2]
    · rw [if_pos (show (!st.isRecording) = true by simp [h])] at hok
      have hok' : Except.ok (ε := PyExc) (st, [Event.warnNotRecording]) =
          Except.ok (st', evs) := hok
      have h2 : st = st' := congrArg Prod.fst (Except.ok.inj hok')
      rw [← h2]
      exact hst

theorem C10_witness :
    IdleImpliesNoTasks (initState "o") ∧
    IdleImpliesNoTasks
      (startRecording (fun _ _ => none) "s" ["c"] [] [] (initState "o")).1 :=
  ⟨C10_idle_recorder_holds_no_processes.1 "o",
   C10_idle_recorder_holds_no_processes.2.1 (fun _ _ => none) "s" ["c"] [] []
     (initState "o") (C10_idle_recorder_holds_no_processes.1 "o")⟩

theorem stopOneTask_ok (fs : String → Bool) (r : Recording) :
    ∃ evs, stopOneTask fs r = .ok evs := by
  rw [stopOneTask]
  rcases hsp : stopProcessActions r.process with ⟨tr, _ | e⟩
  · exact ⟨_, rfl⟩
  · exact ⟨_, rfl⟩

theorem mapM_stopOneTask_ok (fs : String → Bool) :
    ∀ l : List Recording, ∃ evss, l.mapM (stopOneTask fs) = .ok evss := by
  intro l
  induction l with
  | nil => exact ⟨[], rfl⟩
  | cons r l ih =>
    obtain ⟨evs, hr⟩ := stopOneTask_ok fs r
    obtain ⟨evss, hl⟩ := ih
    exact ⟨evs :: evss, by rw [List.mapM_cons, hr, hl]; rfl⟩

/-- C1: on a recording session with a non-empty task list, `stop_recording`
completes without raising — every per-task shutdown failure is handled
inside the loop — and afterwards the task list is empty and the state is
idle. -/
theorem C1_stop_always_completes (fs : String → Bool) (st : RecorderState)
    (h : st.isRecording = true) (hne : st.recordingProcesses ≠ []) :
    ∃ evs, stopRecording fs st =
      .ok ({ st with recordingProcesses := [], isRecording := false }, evs) := by
  obtain ⟨evss, hm⟩ := mapM_stopOneTask_ok fs st.recordingProcesses
  refine ⟨evss.flatten, ?_⟩
  rw [stopRecording, if_neg (show ¬(!st.isRecording) = true by simp [h]), hm]
  rfl

theorem C1_witness :
    ∃ evs, stopRecording (fun _ => true)
        { outputDir := "o",
          recordingProcesses :=
            [⟨TaskType.camera, "c", ⟨true, false, false⟩, "p"⟩],
          isRecording := true } =
      .ok ({ outputDir := "o", recordingProcesses := [], isRecording := false },
        evs) :=
  C1_stop_always_completes (fun _ => true) _ rfl (by simp)

/-- The per-task escalation sequence described by claim C2: one quit byte to
stdin, close stdin, wait up to 5 seconds; on timeout terminate and wait up to
2 more seconds; if still alive kill and wait with no timeout.  Written from
the claim text, to be compared with the code's behavior. -/
def claimedEscalation (b : ProcBehavior) : List StopAction :=
  [.writeQuit, .closeStdin, .waitFor (some 5)] ++
    (if b.exitsWithin5 then []
     else [.terminate, .waitFor (some 2)] ++
       (if b.exitsAfterTerminate then [] else [.kill, .waitFor none]))

theorem stopOneTask_actions (fs : String → Bool) (r : Recording)
    (hw : r.process.writeRaises = false) :
    ∃ evs, stopOneTask fs r = .ok evs ∧
      evs.filterMap eventAction = claimedEscalation r.process := by
  rw [stopOneTask, stopProcessActions, hw]
  cases h5 : r.process.exitsWithin5 <;> cases h2 : r.process.exitsAfterTerminate <;>
    refine ⟨_, rfl, ?_⟩ <;>
      cases hfs : fs r.output <;>
        simp [claimedEscalation, outputCheck, eventAction, h5, h2, hfs]

theorem mapM_stop_actions (fs : String → Bool) :
    ∀ l : List Recording, (∀ r ∈ l, r.process.writeRaises = false) →
      ∃ evss, l.mapM (stopOneTask fs) = .ok evss ∧
        evss.flatten.filterMap eventAction =
          l.flatMap fun r => claimedEscalation r.process := by
  intro l
  induction l with
  | nil => exact fun _ => ⟨[], rfl, rfl⟩
  | cons r l ih =>
    intro hw
    obtain ⟨evs, hr, ha⟩ := stopOneTask_actions fs r (hw r (List.mem_cons_self r l))
    obtain ⟨evss, hm, hfl⟩ := ih fun x hx => hw x (List.mem_cons_of_mem r hx)
    refine ⟨evs :: evss, by rw [List.mapM_cons, hr, hm]; rfl, ?_⟩
    rw [List.flatten_cons, List.filterMap_append, ha, hfl, List.flatMap_cons]

/-- C2: for every task in the active list (whose stdin still accepts the quit
byte), `stop_recording` follows exactly the claimed escalation: write one
quit byte and close stdin, wait up to 5 seconds; on timeout send a
termination signal and wait up to 2 seconds; if still alive, kill and wait
with no timeout. -/
theorem C2_stop_escalation (fs : String → Bool) (st : RecorderState)
    (h : st.isRecording = true)
    (hw : ∀ r ∈ st.recordingProcesses, r.process.writeRaises = false) :
    ∃ evs, stopRecording fs st =
      .ok ({ st with recordingProcesses := [], isRecording := false }, evs) ∧
      evs.filterMap eventAction =
        st.recordingProcesses.flatMap fun r => claimedEscalation r.process := by
  obtain ⟨evss, hm, hfl⟩ := mapM_stop_actions fs st.recordingProcesses hw
  refine ⟨evss.flatten, ?_, hfl⟩
  rw [stopRecording, if_neg (show ¬(!st.isRecording) = true by simp [h]), hm]
  rfl

theorem C2_witness :
    ∃ evs, stopRecording (fun _ => true)
        { outputDir := "o",
          recordingProcesses :=
            [⟨TaskType.camera, "c", ⟨false, true, true⟩, "p1"⟩,
             ⟨TaskType.microphone, "m", ⟨false, false, true⟩, "p2"⟩,
             ⟨TaskType.monitor, "s", ⟨false, false, false⟩, "p3"⟩],
          isRecording := true } =
      .ok ({ outputDir := "o", recordingProcesses := [], isRecording := false },
        evs) ∧
      evs.filterMap eventAction =
        ([⟨TaskType.camera, "c", ⟨false, true, true⟩, "p1"⟩,
          ⟨TaskType.microphone, "m", ⟨false, false, true⟩, "p2"⟩,
          ⟨TaskType.monitor, "s", ⟨false, false, false⟩, "p3"⟩] :
            List Recording).flatMap (fun r => claimedEscalation r.process) :=
  C2_stop_escalation (fun _ => true) _ rfl (by decide)

/-- C5: in a session started from a fresh idle recorder with
pairwise-distinct device names per kind, the output paths of the launched
tasks are pairwise distinct — no two tasks share an output path. -/
theorem C5_output_paths_distinct (launch : LaunchOracle) (sessionDir : String)
    (cameras microphones : List String) (monitors : List Monitor)
    (st : RecorderState) (h0 : st.recordingProcesses = [])
    (h1 : st.isRecording = false) (hc : cameras.Nodup) (hm : microphones.Nodup)
    (hmon : (monitors.map Monitor.name).Nodup) :
    (((startRecording launch sessionDir cameras microphones monitors
        st).1.recordingProcesses).map Recording.output).Nodup := by
  rw [startRecording, if_neg (by simp [h1])]
  show ((st.recordingProcesses ++
      (kindTasks launch .camera sessionDir cameras ++
        kindTasks launch .microphone sessionDir microphones ++
        kindTasks launch .monitor sessionDir (monitors.map Monitor.name))).map
    Recording.output).Nodup
  rw [h0, List.nil_append, List.map_append, List.map_append]
  refine List.Nodup.append (List.Nodup.append ?_ ?_ ?_) ?_ ?_
  · exact kindTasks_outputs_nodup launch .camera sessionDir cameras
  · exact kindTasks_outputs_nodup launch .microphone sessionDir microphones
  · exact kindTasks_outputs_disjoint (by decide)
  · exact kindTasks_outputs_nodup launch .monitor sessionDir (monitors.map Monitor.name)
  · rw [List.disjoint_append_left]
    exact ⟨kindTasks_outputs_disjoint (by decide),
      kindTasks_outputs_disjoint (by decide)⟩

theorem C5_witness :
    (((startRecording (fun _ _ => some ⟨false, true, true⟩) "s" ["A", "B"] ["A"]
        [⟨"M", 0, 0, 8, 6, true⟩]
        (initState "o")).1.recordingProcesses).map Recording.output).Nodup :=
  C5_output_paths_distinct _ _ _ _ _ _ rfl rfl (by decide) (by decide) (by decide)

theorem launchAttempt_mem_kindEventsAux {launch : LaunchOracle} {t : TaskType}
    {d : String} :
    ∀ {pairs : List (Nat × String)} {p : Nat × String}, p ∈ pairs →
      Event.launchAttempt t p.2 ∈ kindEventsAux launch t d pairs := by
  intro pairs
  induction pairs with
  | nil => intro p hp; cases hp
  | cons q pairs ih =>
    intro p hp
    rw [kindEventsAux]
    rcases List.mem_cons.mp hp with rfl | hp
    · apply List.mem_append_left
      cases h : launch t p.2 <;> simp [h]
    · exact List.mem_append_right _ (ih hp)

theorem launchAttempt_mem_kindEvents {launch : LaunchOracle} {t : TaskType}
    {d : String} {names : List String} {n : String} (hn : n ∈ names) :
    Event.launchAttempt t n ∈ kindEvents launch t d names := by
  have hmem : n ∈ names.enum.map Prod.snd := by
    rw [List.enum_map_snd]
    exact hn
  rw [List.mem_map] at hmem
  obtain ⟨p, hp, hpn⟩ := hmem
  rw [kindEvents, ← hpn]
  exact launchAttempt_mem_kindEventsAux hp

/-- C6: a failed subprocess launch only omits its own device: the launch of
every requested device is attempted regardless of other failures, every task
in the final list corresponds to a successful spawn, every successful spawn
ends up in the task list, and the call still returns the session
directory. -/
theorem C6_launch_failure_isolated (launch : LaunchOracle) (sessionDir : String)
    (cameras microphones : List String) (monitors : List Monitor)
    (st : RecorderState) (h1 : st.isRecording = false) :
    (startRecording launch sessionDir cameras microphones monitors st).2.1 =
      some sessionDir ∧
    (∀ n ∈ cameras, Event.launchAttempt .camera n ∈
      (startRecording launch sessionDir cameras microphones monitors st).2.2) ∧
    (∀ n ∈ microphones, Event.launchAttempt .microphone n ∈
      (startRecording launch sessionDir cameras microphones monitors st).2.2) ∧
    (∀ m ∈ monitors, Event.launchAttempt .monitor m.name ∈
      (startRecording launch sessionDir cameras microphones monitors st).2.2) ∧
    (∀ r ∈ (startRecording launch sessionDir cameras microphones monitors
        st).1.recordingProcesses,
      r ∈ st.recordingProcesses ∨ launch r.type r.name = some r.process) ∧
    (∀ p ∈ cameras.enum, ∀ pb : ProcBehavior, launch .camera p.2 = some pb →
      (⟨.camera, p.2, pb, outputPath sessionDir .camera p.1 p.2⟩ : Recording) ∈
        (startRecording launch sessionDir cameras microphones monitors
          st).1.recordingProcesses) ∧
    (∀ p ∈ microphones.enum, ∀ pb : ProcBehavior,
      launch .microphone p.2 = some pb →
      (⟨.microphone, p.2, pb,
          outputPath sessionDir .microphone p.1 p.2⟩ : Recording) ∈
        (startRecording launch sessionDir cameras microphones monitors
          st).1.recordingProcesses) ∧
    (∀ p ∈ (monitors.map Monitor.name).enum, ∀ pb : ProcBehavior,
      launch .monitor p.2 = some pb →
      (⟨.monitor, p.2, pb, outputPath sessionDir .monitor p.1 p.2⟩ : Recording) ∈
        (startRecording launch sessionDir cameras microphones monitors
          st).1.recordingProcesses) := by
  rw [startRecording, if_neg (by simp [h1])]
  refine ⟨rfl, ?_, ?_, ?_, ?_, ?_, ?_, ?_⟩
  · intro n hn
    exact List.mem_cons_of_mem _ (List.mem_append_left _
      (List.mem_append_left _ (launchAttempt_mem_kindEvents hn)))
  · intro n hn
    exact List.mem_cons_of_mem _ (List.mem_append_left _
      (List.mem_append_right _ (launchAttempt_mem_kindEvents hn)))
  · intro m hm
    exact List.mem_cons_of_mem _ (List.mem_append_right _
      (launchAttempt_mem_kindEvents (List.mem_map_of_mem Monitor.name hm)))
  · intro r hr
    rcases List.mem_append.mp hr with h | h
    · exact Or.inl h
    · right
      rcases List.mem_append.mp h with h | h
      · rcases List.mem_append.mp h with h | h
        all_goals
          obtain ⟨p, -, hl, ht, hnm, -⟩ := mem_kindTasks_elim h
          rw [ht, hnm]
          exact hl
      · obtain ⟨p, -, hl, ht, hnm, -⟩ := mem_kindTasks_elim h
        rw [ht, hnm]
        exact hl
  · intro p hp pb hl
    exact List.mem_append_right _ (List.mem_append_left _
      (List.mem_append_left _ (mem_kindTasks_intro hp hl)))
  · intro p hp pb hl
    exact List.mem_append_right _ (List.mem_append_left _
      (List.mem_append_right _ (mem_kindTasks_intro hp hl)))
  · intro p hp pb hl
    exact List.mem_append_right _
      (List.mem_append_right _ (mem_kindTasks_intro hp hl))

theorem C6_witness :
    (startRecording
        (fun _ n => if n = "bad" then none else some ⟨false, true, true⟩)
        "s" ["bad", "good"] [] [] (initState "o")).2.1 = some "s" ∧
    (∀ n ∈ ["bad", "good"], Event.launchAttempt .camera n ∈
      (startRecording
        (fun _ n => if n = "bad" then none else some ⟨false, true, true⟩)
        "s" ["bad", "good"] [] [] (initState "o")).2.2) ∧
    (∀ n ∈ ([] : List String), Event.launchAttempt .microphone n ∈
      (startRecording
        (fun _ n => if n = "bad" then none else some ⟨false, true, true⟩)
        "s" ["bad", "good"] [] [] (initState "o")).2.2) ∧
    (∀ m ∈ ([] : List Monitor), Event.launchAttempt .monitor m.name ∈
      (startRecording
        (fun _ n => if n = "bad" then none else some ⟨false, true, true⟩)
        "s" ["bad", "good"] [] [] (initState "o")).2.2) ∧
    (∀ r ∈ (startRecording
        (fun _ n => if n = "bad" then none else some ⟨false, true, true⟩)
        "s" ["bad", "good"] [] [] (initState "o")).1.recordingProcesses,
      r ∈ (initState "o").recordingProcesses ∨
        (fun _ n => if n = "bad" then none else
          some (⟨false, true, true⟩ : ProcBehavior)) r.type r.name =
          some r.process) ∧
    (∀ p ∈ (["bad", "good"] : List String).enum, ∀ pb : ProcBehavior,
      (fun _ n => if n = "bad" then none else
        some (⟨false, true, true⟩ : ProcBehavior)) TaskType.camera p.2 =
        some pb →
      (⟨.camera, p.2, pb, outputPath "s" .camera p.1 p.2⟩ : Recording) ∈
        (startRecording
          (fun _ n => if n = "bad" then none else some ⟨false, true, true⟩)
          "s" ["bad", "good"] [] [] (initState "o")).1.recordingProcesses) ∧
    (∀ p ∈ ([] : List String).enum, ∀ pb : ProcBehavior,
      (fun _ n => if n = "bad" then none else
        some (⟨false, true, true⟩ : ProcBehavior)) TaskType.microphone p.2 =
        some pb →
      (⟨.microphone, p.2, pb, outputPath "s" .microphone p.1 p.2⟩ : Recording) ∈
        (startRecording
          (fun _ n => if n = "bad" then none else some ⟨false, true, true⟩)
          "s" ["bad", "good"] [] [] (initState "o")).1.recordingProcesses) ∧
    (∀ p ∈ (([] : List Monitor).map Monitor.name).enum, ∀ pb : ProcBehavior,
      (fun _ n => if n = "bad" then none else
        some (⟨false, true, true⟩ : ProcBehavior)) TaskType.monitor p.2 =
        some pb →
      (⟨.monitor, p.2, pb, outputPath "s" .monitor p.1 p.2⟩ : Recording) ∈
        (startRecording
          (fun _ n => if n = "bad" then none else some ⟨false, true, true⟩)
          "s" ["bad", "good"] [] [] (initState "o")).1.recordingProcesses) :=
  C6_launch_failure_isolated _ "s" ["bad", "good"] [] [] (initState "o") rfl

theorem kindTasks_type {launch : LaunchOracle} {t : TaskType} {d : String}
    {names : List String} {r : Recording}
    (hr : r ∈ kindTasks launch t d names) : r.type = t := by
  obtain ⟨p, -, -, ht, -, -⟩ := mem_kindTasks_elim hr
  exact ht

theorem kindTasks_names_sublist (launch : LaunchOracle) (t : TaskType)
    (d : String) (names : List String) :
    ((kindTasks launch t d names).map Recording.name).Sublist names := by
  have h : ((kindTasks launch t d names).map Recording.name).Sublist
      (names.enum.map Prod.snd) := by
    rw [kindTasks, kindTasksAux, List.map_filterMap]
    apply filterMap_sublist_map
    intro p s hs
    cases hl : launch t p.2 <;> rw [hl] at hs
    · simp at hs
    · simp only [Option.map_some', Option.some.injEq] at hs
      rw [← hs]
  rwa [List.enum_map_snd] at h

theorem kindTasksAux_cons_none {launch : LaunchOracle} {t : TaskType}
    {d : String} {p : Nat × String} {pairs : List (Nat × String)}
    (hl : launch t p.2 = none) :
    kindTasksAux launch t d (p :: pairs) = kindTasksAux launch t d pairs := by
  rw [kindTasksAux, kindTasksAux, List.filterMap_cons_none]
  rw [hl]
  rfl

theorem kindTasksAux_cons_some {launch : LaunchOracle} {t : TaskType}
    {d : String} {p : Nat × String} {pairs : List (Nat × String)}
    {pb : ProcBehavior} (hl : launch t p.2 = some pb) :
    kindTasksAux launch t d (p :: pairs) =
      ⟨t, p.2, pb, outputPath d t p.1 p.2⟩ :: kindTasksAux launch t d pairs := by
  rw [kindTasksAux, kindTasksAux,
    List.filterMap_cons_some (show _ = some (⟨t, p.2, pb, outputPath d t p.1 p.2⟩ :
      Recording) by rw [hl]; rfl)]

/-- The successful-launch log lines appear in exactly the order in which the
corresponding tasks are inserted into the task list. -/
theorem kindEventsAux_launchedOutputs (launch : LaunchOracle) (t : TaskType)
    (d : String) :
    ∀ pairs : List (Nat × String),
      (kindEventsAux launch t d pairs).filterMap launchedOutput =
        (kindTasksAux launch t d pairs).map Recording.output := by
  intro pairs
  induction pairs with
  | nil => rfl
  | cons p pairs ih =>
    rw [kindEventsAux]
    cases hl : launch t p.2 with
    | none =>
      rw [kindTasksAux_cons_none hl]
      simp only [hl, List.flatMap_cons, List.filterMap_append]
      rw [show List.filterMap launchedOutput
          [Event.launchAttempt t p.2, Event.launchFailed t p.2] = [] from rfl]
      rw [List.nil_append, ← kindEventsAux, ih]
    | some pb =>
      rw [kindTasksAux_cons_some hl]
      simp only [hl, List.flatMap_cons, List.filterMap_append]
      rw [show List.filterMap launchedOutput
          [Event.launchAttempt t p.2,
            Event.launched t p.2 (outputPath d t p.1 p.2)] =
          [outputPath d t p.1 p.2] from rfl]
      rw [← kindEventsAux, ih]
      rfl

/-- C8: tasks are launched and recorded in a deterministic order — all
cameras, then all microphones, then all monitors, each group in caller
order — and the successful-launch trace order equals the task-list insertion
order. -/
theorem C8_deterministic_order (launch : LaunchOracle) (sessionDir : String)
    (cameras microphones : List String) (monitors : List Monitor)
    (st : RecorderState) (h1 : st.isRecording = false) :
    ∃ A B C : List Recording,
      (startRecording launch sessionDir cameras microphones monitors
          st).1.recordingProcesses = st.recordingProcesses ++ (A ++ B ++ C) ∧
      (∀ r ∈ A, r.type = .camera) ∧
      (A.map Recording.name).Sublist cameras ∧
      (∀ r ∈ B, r.type = .microphone) ∧
      (B.map Recording.name).Sublist microphones ∧
      (∀ r ∈ C, r.type = .monitor) ∧
      (C.map Recording.name).Sublist (monitors.map Monitor.name) ∧
      ((startRecording launch sessionDir cameras microphones monitors
          st).2.2).filterMap launchedOutput = (A ++ B ++ C).map Recording.output := by
  rw [startRecording, if_neg (by simp [h1])]
  refine ⟨kindTasks launch .camera sessionDir cameras,
    kindTasks launch .microphone sessionDir microphones,
    kindTasks launch .monitor sessionDir (monitors.map Monitor.name),
    rfl, fun r hr => kindTasks_type hr, kindTasks_names_sublist _ _ _ _,
    fun r hr => kindTasks_type hr, kindTasks_names_sublist _ _ _ _,
    fun r hr => kindTasks_type hr, kindTasks_names_sublist _ _ _ _, ?_⟩
  show (Event.sessionDirCreated sessionDir ::
      (kindEvents launch .camera sessionDir cameras ++
        kindEvents launch .microphone sessionDir microphones ++
        kindEvents launch .monitor sessionDir
          (monitors.map Monitor.name))).filterMap launchedOutput = _
  rw [List.filterMap_cons_none rfl, List.filterMap_append, List.filterMap_append,
    kindEvents, kindEvents, kindEvents,
    kindEventsAux_launchedOutputs, kindEventsAux_launchedOutputs,
    kindEventsAux_launchedOutputs,
    List.map_append, List.map_append, kindTasks, kindTasks, kindTasks]

theorem C8_witness :
    ∃ A B C : List Recording,
      (startRecording (fun _ _ => some ⟨false, true, true⟩) "s" ["c1", "c2"]
          ["m1"] [⟨"M", 0, 0, 8, 6, true⟩]
          (initState "o")).1.recordingProcesses =
        (initState "o").recordingProcesses ++ (A ++ B ++ C) ∧
      (∀ r ∈ A, r.type = .camera) ∧
      (A.map Recording.name).Sublist ["c1", "c2"] ∧
      (∀ r ∈ B, r.type = .microphone) ∧
      (B.map Recording.name).Sublist ["m1"] ∧
      (∀ r ∈ C, r.type = .monitor) ∧
      (C.map Recording.name).Sublist
        (([⟨"M", 0, 0, 8, 6, true⟩] : List Monitor).map Monitor.name) ∧
      ((startRecording (fun _ _ => some ⟨false, true, true⟩) "s" ["c1", "c2"]
          ["m1"] [⟨"M", 0, 0, 8, 6, true⟩]
          (initState "o")).2.2).filterMap launchedOutput =
        (A ++ B ++ C).map Recording.output :=
  C8_deterministic_order _ "s" ["c1", "c2"] ["m1"] [⟨"M", 0, 0, 8, 6, true⟩]
    (initState "o") rfl

end HallmarkRecord
